import Mathlib

/-
  Verification of the rhex hex viewer (src/main.rs).

  Shallow embedding conventions:
  - u64 and u16 machine integers are modelled as Nat; truncating casts
    (`as u16` in the source) are written explicitly as `% 65536`.
    Theorems carry explicit non-overflow side conditions where the source
    performs u64 arithmetic that could wrap at astronomical file sizes.
  - The open file descriptor is modelled by a function `file : Nat -> Nat`
    giving the byte at each address, together with the `filesize` field.
  - `HexView` keeps the fields of the Rust struct that carry program state:
    view_height, cursor_x, cursor_y, endian, filesize, offset, page_address,
    page.  Omitted fields are pure presentation plumbing: stdout, the
    terminal/pane widths, filename, fd (replaced by the `file` parameter)
    and the `update_needed` redraw flag.
  - Terminal drawing (erase_cursor, update_cursor, draw_*) writes styled
    text and refreshes the page cache; it never modifies offset, cursor_x,
    cursor_y, endian, filesize or view_height, so the navigation functions
    below omit those calls.  Their cache effect is modelled separately via
    `at_` and `page_fault`.
  - The `assert!` calls in `at` are modelled by returning an Option:
    `none` corresponds to a panic.
-/

set_option autoImplicit false

inductive Endiannes
  | LittleEndian
  | BigEndian
deriving DecidableEq

open Endiannes

def HEX_PAGESIZE : Nat := 1024

structure HexView where
  view_height : Nat
  cursor_x : Nat
  cursor_y : Nat
  endian : Endiannes
  filesize : Nat
  offset : Nat
  page_address : Nat
  page : Nat → Nat

/-- Embedding of HexView::page_fault (main.rs lines 131-150): align the
address down to a HEX_PAGESIZE boundary, clear the buffer and read from the
file; bytes past end-of-file stay zero. -/
def page_fault (file : Nat → Nat) (s : HexView) (address : Nat) : HexView :=
  let pa := address / HEX_PAGESIZE * HEX_PAGESIZE
  { s with
    page_address := pa,
    page := fun i => if i < HEX_PAGESIZE ∧ pa + i < s.filesize then file (pa + i) else 0 }

/-- Embedding of HexView::at (main.rs lines 152-163).  Named at_ because
the word at is reserved in Lean.  The entry assertion address < filesize and
the post-page_fault assertion are modelled as guards returning none on
violation (a panic in the source). -/
def at_ (s : HexView) (file : Nat → Nat) (address : Nat) : Option (Nat × HexView) :=
  if address < s.filesize then
    if s.page_address ≤ address ∧ address < s.page_address + HEX_PAGESIZE then
      some (s.page (address - s.page_address), s)
    else
      let s2 := page_fault file s address
      if s2.page_address ≤ address ∧ address < s2.page_address + HEX_PAGESIZE then
        some (s2.page (address - s2.page_address), s2)
      else
        none
  else
    none

/-- Byte returned by a call to at; 0 stands in for the panic case, which the
theorems prove unreachable under the preconditions. -/
def at_val (s : HexView) (file : Nat → Nat) (address : Nat) : Nat :=
  match at_ s file address with
  | some (b, _) => b
  | none => 0

/-- Cache state after a call to at; the state is left in place in the panic
case, which the theorems prove unreachable under the preconditions. -/
def at_state (s : HexView) (file : Nat → Nat) (address : Nat) : HexView :=
  match at_ s file address with
  | some (_, s2) => s2
  | none => s

/-- The single-slot page cache holds exactly the bytes the file has at the
cached window, zero-filled past end-of-file: this is what page_fault
establishes and what the hit path of at relies on. -/
def CacheValid (file : Nat → Nat) (s : HexView) : Prop :=
  ∀ i, i < HEX_PAGESIZE →
    s.page i = if s.page_address + i < s.filesize then file (s.page_address + i) else 0

/-- Perform a sequence of at calls in order, keeping only the evolving cache
state.  An address that would trip the entry assertion leaves the state
unchanged; the theorems below never rely on that fallback. -/
def query_all (file : Nat → Nat) (s : HexView) (qs : List Nat) : HexView :=
  qs.foldl (fun t q =>
    match at_ t file q with
    | some (_, t2) => t2
    | none => t) s

/-- Embedding of HexView::new (main.rs lines 62-99): the state fields before
a file is loaded.  view_height is terminal height minus the 6 info-pane
rows; the terminal-size checks happen before this state exists. -/
def hexview_new (view_height : Nat) : HexView :=
  { view_height := view_height
    cursor_x := 0
    cursor_y := 0
    endian := LittleEndian
    filesize := 0
    offset := 0
    page_address := 0
    page := fun _ => 0 }

/-- Model of a successful std File::open of an existing readable file, as
used by HexView::load: the open itself performs no file-size check. -/
def file_open (file : Nat → Nat) (_filesize : Nat) : Option (Nat → Nat) :=
  some file

/-- Embedding of HexView::load (main.rs lines 101-129): record the file size,
reject an empty file with process exit code 1 (Except.error 1), then fault
in the first page.  The pane-width bookkeeping is omitted. -/
def load (file : Nat → Nat) (filesize : Nat) (init : HexView) : Except Nat HexView :=
  if filesize = 0 then
    Except.error 1
  else
    Except.ok (page_fault file { init with filesize := filesize } 0)

/-- u16::from_le_bytes on the two bytes of the window. -/
def u16_from_le_bytes (b0 b1 : Nat) : Nat := b0 + 256 * b1

/-- u16::from_be_bytes on the two bytes of the window. -/
def u16_from_be_bytes (b0 b1 : Nat) : Nat := b1 + 256 * b0

/-- u32::from_le_bytes. -/
def u32_from_le_bytes (b0 b1 b2 b3 : Nat) : Nat :=
  b0 + 256 * (b1 + 256 * (b2 + 256 * b3))

/-- u32::from_be_bytes. -/
def u32_from_be_bytes (b0 b1 b2 b3 : Nat) : Nat :=
  b3 + 256 * (b2 + 256 * (b1 + 256 * b0))

/-- u64::from_le_bytes. -/
def u64_from_le_bytes (b0 b1 b2 b3 b4 b5 b6 b7 : Nat) : Nat :=
  b0 + 256 * (b1 + 256 * (b2 + 256 * (b3 + 256 * (b4 + 256 * (b5 + 256 * (b6 + 256 * b7))))))

/-- u64::from_be_bytes. -/
def u64_from_be_bytes (b0 b1 b2 b3 b4 b5 b6 b7 : Nat) : Nat :=
  b7 + 256 * (b6 + 256 * (b5 + 256 * (b4 + 256 * (b3 + 256 * (b2 + 256 * (b1 + 256 * b0))))))

/-- Twos-complement reinterpretation: iN::from_xx_bytes produces the signed
value whose w-bit pattern is the unsigned value n. -/
def to_signed (w : Nat) (n : Nat) : Int :=
  if n < 2 ^ (w - 1) then (n : Int) else (n : Int) - 2 ^ w

/-- Embedding of the decode part of HexView::draw_info_i8 (main.rs lines
294-315): available exactly when pos < filesize; returns (i8, u8) and the
cache state after the two at calls (both on the same address, so the second
is a hit). -/
def draw_info_i8 (s : HexView) (file : Nat → Nat) (pos : Nat) :
    Option (Int × Nat) × HexView :=
  if pos < s.filesize then
    let data_i8 := to_signed 8 (at_val s file pos)
    let s1 := at_state s file pos
    let data_u8 := at_val s1 file pos
    let s2 := at_state s1 file pos
    (some (data_i8, data_u8), s2)
  else
    (none, s)

/-- Embedding of the decode part of HexView::draw_info_i16 (main.rs lines
317-346): available exactly when pos + 1 < filesize; assembles the two bytes
per the session endianness and returns (i16, u16) plus the cache state. -/
def draw_info_i16 (s : HexView) (file : Nat → Nat) (pos : Nat) :
    Option (Int × Nat) × HexView :=
  if pos + 1 < s.filesize then
    let b0 := at_val s file pos
    let s1 := at_state s file pos
    let b1 := at_val s1 file (pos + 1)
    let s2 := at_state s1 file (pos + 1)
    let data_u16 :=
      if s.endian = LittleEndian then u16_from_le_bytes b0 b1 else u16_from_be_bytes b0 b1
    (some (to_signed 16 data_u16, data_u16), s2)
  else
    (none, s)

/-- Embedding of the decode part of HexView::draw_info_i32 (main.rs lines
348-397): available exactly when pos + 3 < filesize; returns (i32, u32) plus
the cache state.  The f32 string it also formats is dead code there (never
printed); the live f32 decode is in draw_info_f32_f64_and_endianness. -/
def draw_info_i32 (s : HexView) (file : Nat → Nat) (pos : Nat) :
    Option (Int × Nat) × HexView :=
  if pos + 3 < s.filesize then
    let b0 := at_val s file pos
    let s1 := at_state s file pos
    let b1 := at_val s1 file (pos + 1)
    let s2 := at_state s1 file (pos + 1)
    let b2 := at_val s2 file (pos + 2)
    let s3 := at_state s2 file (pos + 2)
    let b3 := at_val s3 file (pos + 3)
    let s4 := at_state s3 file (pos + 3)
    let data_u32 :=
      if s.endian = LittleEndian then u32_from_le_bytes b0 b1 b2 b3
      else u32_from_be_bytes b0 b1 b2 b3
    (some (to_signed 32 data_u32, data_u32), s4)
  else
    (none, s)

/-- Embedding of the decode part of HexView::draw_info_i64 (main.rs lines
399-442): available exactly when pos + 7 < filesize; returns (i64, u64) plus
the cache state. -/
def draw_info_i64 (s : HexView) (file : Nat → Nat) (pos : Nat) :
    Option (Int × Nat) × HexView :=
  if pos + 7 < s.filesize then
    let b0 := at_val s file pos
    let s1 := at_state s file pos
    let b1 := at_val s1 file (pos + 1)
    let s2 := at_state s1 file (pos + 1)
    let b2 := at_val s2 file (pos + 2)
    let s3 := at_state s2 file (pos + 2)
    let b3 := at_val s3 file (pos + 3)
    let s4 := at_state s3 file (pos + 3)
    let b4 := at_val s4 file (pos + 4)
    let s5 := at_state s4 file (pos + 4)
    let b5 := at_val s5 file (pos + 5)
    let s6 := at_state s5 file (pos + 5)
    let b6 := at_val s6 file (pos + 6)
    let s7 := at_state s6 file (pos + 6)
    let b7 := at_val s7 file (pos + 7)
    let s8 := at_state s7 file (pos + 7)
    let data_u64 :=
      if s.endian = LittleEndian then u64_from_le_bytes b0 b1 b2 b3 b4 b5 b6 b7
      else u64_from_be_bytes b0 b1 b2 b3 b4 b5 b6 b7
    (some (to_signed 64 data_u64, data_u64), s8)
  else
    (none, s)

/-- Embedding of the decode part of HexView::draw_info_f32_f64_and_endianness
(main.rs lines 444-510): the f32 field is available exactly when
pos + 3 < filesize and the f64 field exactly when pos + 7 < filesize.  The
values carried are the assembled 32/64-bit patterns fed to
f32/f64::from_xx_bytes; the IEEE-754 transmutation and pretty-printing are
rendering and are not modelled. -/
def draw_info_f32_f64_and_endianness (s : HexView) (file : Nat → Nat) (pos : Nat) :
    (Option Nat × Option Nat) × HexView :=
  let f32_part : Option Nat × HexView :=
    if pos + 3 < s.filesize then
      let b0 := at_val s file pos
      let s1 := at_state s file pos
      let b1 := at_val s1 file (pos + 1)
      let s2 := at_state s1 file (pos + 1)
      let b2 := at_val s2 file (pos + 2)
      let s3 := at_state s2 file (pos + 2)
      let b3 := at_val s3 file (pos + 3)
      let s4 := at_state s3 file (pos + 3)
      let f32_bits :=
        if s.endian = LittleEndian then u32_from_le_bytes b0 b1 b2 b3
        else u32_from_be_bytes b0 b1 b2 b3
      (some f32_bits, s4)
    else
      (none, s)
  let s4 := f32_part.2
  let f64_part : Option Nat × HexView :=
    if pos + 7 < s4.filesize then
      let c0 := at_val s4 file pos
      let t1 := at_state s4 file pos
      let c1 := at_val t1 file (pos + 1)
      let t2 := at_state t1 file (pos + 1)
      let c2 := at_val t2 file (pos + 2)
      let t3 := at_state t2 file (pos + 2)
      let c3 := at_val t3 file (pos + 3)
      let t4 := at_state t3 file (pos + 3)
      let c4 := at_val t4 file (pos + 4)
      let t5 := at_state t4 file (pos + 4)
      let c5 := at_val t5 file (pos + 5)
      let t6 := at_state t5 file (pos + 5)
      let c6 := at_val t6 file (pos + 6)
      let t7 := at_state t6 file (pos + 6)
      let c7 := at_val t7 file (pos + 7)
      let t8 := at_state t7 file (pos + 7)
      let f64_bits :=
        if s.endian = LittleEndian then u64_from_le_bytes c0 c1 c2 c3 c4 c5 c6 c7
        else u64_from_be_bytes c0 c1 c2 c3 c4 c5 c6 c7
      (some f64_bits, t8)
    else
      (none, s4)
  ((f32_part.1, f64_part.1), f64_part.2)

/-- Absolute linear file position of the cursor, the expression
offset + cursor_y * 16 + cursor_x recomputed throughout main.rs. -/
def abs_position (s : HexView) : Nat :=
  s.offset + s.cursor_y * 16 + s.cursor_x

/-- Embedding of HexView::toggle_endianness (main.rs lines 595-603): flip
the byte order; the redraw of the info pane is rendering only. -/
def toggle_endianness (s : HexView) : HexView :=
  if s.endian = LittleEndian then { s with endian := BigEndian }
  else { s with endian := LittleEndian }

/-- Embedding of HexView::key_little_endian (main.rs lines 605-610). -/
def key_little_endian (s : HexView) : HexView :=
  if s.endian = LittleEndian then s else toggle_endianness s

/-- Embedding of HexView::key_big_endian (main.rs lines 612-617). -/
def key_big_endian (s : HexView) : HexView :=
  if s.endian = BigEndian then s else toggle_endianness s

/-- Embedding of HexView::key_right (main.rs lines 619-643): no-op when the
next linear position would reach end-of-file; otherwise advance cursor_x,
wrapping into the next row and scrolling when past the last visible row. -/
def key_right (s : HexView) : HexView :=
  let pos := s.offset + s.cursor_y * 16 + s.cursor_x + 1
  if pos ≥ s.filesize then s
  else
    let cursor_x := s.cursor_x + 1
    if cursor_x ≥ 16 then
      let cursor_y := s.cursor_y + 1
      if cursor_y ≥ s.view_height then
        { s with cursor_x := 0, cursor_y := s.view_height - 1, offset := s.offset + 16 }
      else
        { s with cursor_x := 0, cursor_y := cursor_y }
    else
      { s with cursor_x := cursor_x }

/-- Embedding of HexView::key_left (main.rs lines 645-669): no-op at linear
position 0; otherwise retreat cursor_x, wrapping into the previous row and
scrolling when at the first visible row. -/
def key_left (s : HexView) : HexView :=
  let pos := s.offset + s.cursor_y * 16 + s.cursor_x
  if pos = 0 then s
  else if s.cursor_x = 0 then
    if s.cursor_y = 0 then
      { s with offset := s.offset - 16, cursor_x := 15 }
    else
      { s with cursor_y := s.cursor_y - 1, cursor_x := 15 }
  else
    { s with cursor_x := s.cursor_x - 1 }

/-- Embedding of HexView::key_down (main.rs lines 671-702): when one row
down would pass end-of-file, clamp the cursor to the coordinates of the last
file byte relative to the current offset (the cast of filesize - 1 - offset
to u16 is the modulo 65536); otherwise advance cursor_y, scrolling at the
last visible row. -/
def key_down (s : HexView) : HexView :=
  let pos := s.offset + (s.cursor_y + 1) * 16 + s.cursor_x
  if pos ≥ s.filesize then
    let p := (s.filesize - 1 - s.offset) % 65536
    { s with cursor_y := p / 16, cursor_x := p % 16 }
  else
    let cursor_y := s.cursor_y + 1
    if cursor_y ≥ s.view_height then
      { s with cursor_y := s.view_height - 1, offset := s.offset + 16 }
    else
      { s with cursor_y := cursor_y }

/-- Embedding of HexView::key_up (main.rs lines 704-733): no-op at linear
position 0; jump to the absolute start when the current position is within
the first row; otherwise go up one row, scrolling at the first visible
row. -/
def key_up (s : HexView) : HexView :=
  let pos := s.offset + s.cursor_y * 16 + s.cursor_x
  if pos = 0 then s
  else if pos < 16 then
    { s with offset := 0, cursor_x := 0, cursor_y := 0 }
  else if s.cursor_y = 0 then
    { s with offset := s.offset - 16 }
  else
    { s with cursor_y := s.cursor_y - 1 }

/-- Embedding of HexView::key_pageup (main.rs lines 735-767): within the
first viewport-height worth of rows, first reset cursor_y and then cursor_x;
within the second, snap offset to 0 recomputing cursor_y (cast to u16);
otherwise scroll back a full viewport height (the assert offset >= one_page
holds there and is modelled by the Nat subtraction). -/
def key_pageup (s : HexView) : HexView :=
  let one_page := s.view_height * 16
  let pos := s.offset + s.cursor_y * 16
  if pos < one_page then
    if s.cursor_y = 0 then
      if s.cursor_x = 0 then s
      else { s with cursor_x := 0 }
    else
      { s with cursor_y := 0 }
  else if pos < one_page * 2 then
    { s with offset := 0, cursor_y := (pos - one_page) / 16 % 65536 }
  else
    { s with offset := s.offset - one_page }

/-- The last page start used by key_pagedown and key_end (main.rs lines
770-775 and 807-812). -/
def end_offset (s : HexView) : Nat :=
  let one_page := s.view_height * 16
  if s.filesize ≤ one_page then 0
  else (s.filesize + 15) / 16 * 16 - one_page

/-- Embedding of HexView::key_end (main.rs lines 806-835): jump to the last
page start and put the cursor on the last file byte (coordinate casts to u16
are the modulo 65536); no-op when already there.  The assert
cy < view_height is proved as part of the End theorem. -/
def key_end (s : HexView) : HexView :=
  let eo := end_offset s
  let cx := (s.filesize - 1 - eo) % 16
  let cy := (s.filesize - 1 - eo) / 16
  if s.offset = eo ∧ s.cursor_x = cx ∧ s.cursor_y = cy then s
  else
    { s with offset := eo, cursor_x := cx % 65536, cursor_y := cy % 65536 }

/-- Embedding of HexView::key_pagedown (main.rs lines 769-784): defer to
key_end when a full page forward reaches the last page start; otherwise
scroll forward a full viewport height. -/
def key_pagedown (s : HexView) : HexView :=
  let one_page := s.view_height * 16
  if end_offset s ≤ s.offset + one_page then key_end s
  else { s with offset := s.offset + one_page }

/-- Embedding of HexView::key_home (main.rs lines 786-804): no-op when
already at the origin, otherwise jump to offset 0, cursor (0,0). -/
def key_home (s : HexView) : HexView :=
  if s.offset = 0 ∧ s.cursor_x = 0 ∧ s.cursor_y = 0 then s
  else { s with offset := 0, cursor_x := 0, cursor_y := 0 }

/-- The navigation commands dispatched by HexView::key_event (main.rs lines
578-593): the arrow keys, PageUp, PageDown, Home, End and the endianness
keys e, l, b. -/
inductive Command
  | right
  | left
  | up
  | down
  | pageup
  | pagedown
  | home
  | endKey
  | charE
  | charL
  | charB
deriving DecidableEq

/-- Embedding of HexView::key_event (main.rs lines 578-593): dispatch one
command to its handler. -/
def key_event (s : HexView) (c : Command) : HexView :=
  match c with
  | Command.right => key_right s
  | Command.left => key_left s
  | Command.up => key_up s
  | Command.down => key_down s
  | Command.pageup => key_pageup s
  | Command.pagedown => key_pagedown s
  | Command.home => key_home s
  | Command.endKey => key_end s
  | Command.charE => toggle_endianness s
  | Command.charL => key_little_endian s
  | Command.charB => key_big_endian s

/-- Apply a sequence of navigation commands from a state, as the session
loop in main does. -/
def run_commands (s : HexView) (cs : List Command) : HexView :=
  cs.foldl key_event s

/-- The positional invariant the spec states for every transition: offset is
row-aligned, the cursor is inside the 16-column viewport of view_height
rows, and the absolute cursor position is inside the file. -/
def nav_invariant (s : HexView) : Prop :=
  s.offset % 16 = 0 ∧ s.cursor_x < 16 ∧ s.cursor_y < s.view_height ∧
    s.offset + s.cursor_y * 16 + s.cursor_x < s.filesize

instance nav_invariant_decidable (s : HexView) : Decidable (nav_invariant s) := by
  unfold nav_invariant
  exact inferInstance

theorem page_fault_in_window (a : Nat) :
    a / HEX_PAGESIZE * HEX_PAGESIZE ≤ a ∧ a < a / HEX_PAGESIZE * HEX_PAGESIZE + HEX_PAGESIZE := by
  have hd := Nat.div_add_mod a HEX_PAGESIZE
  have hm : a % HEX_PAGESIZE < HEX_PAGESIZE := Nat.mod_lt _ (by decide)
  simp only [HEX_PAGESIZE] at *
  omega

theorem cache_valid_page_fault (file : Nat → Nat) (s : HexView) (a : Nat) :
    CacheValid file (page_fault file s a) := by
  intro i hi
  simp only [page_fault]
  simp [hi]

theorem at_some_of_valid (file : Nat → Nat) (s : HexView) (a : Nat)
    (hv : CacheValid file s) (ha : a < s.filesize) :
    ∃ s2, at_ s file a = some (file a, s2) ∧ CacheValid file s2 ∧ s2.filesize = s.filesize := by
  unfold at_
  rw [if_pos ha]
  by_cases hhit : s.page_address ≤ a ∧ a < s.page_address + HEX_PAGESIZE
  · rw [if_pos hhit]
    have hlt : a - s.page_address < HEX_PAGESIZE := by omega
    have hpa : s.page_address + (a - s.page_address) = a := by omega
    have hval : s.page (a - s.page_address) = file a := by
      rw [hv (a - s.page_address) hlt, hpa, if_pos ha]
    exact ⟨s, by rw [hval], hv, rfl⟩
  · rw [if_neg hhit]
    have hw := page_fault_in_window a
    have hguard : (page_fault file s a).page_address ≤ a ∧
        a < (page_fault file s a).page_address + HEX_PAGESIZE := hw
    rw [if_pos hguard]
    have hv2 : CacheValid file (page_fault file s a) := cache_valid_page_fault file s a
    have hlt : a - (page_fault file s a).page_address < HEX_PAGESIZE := by omega
    have hpa : (page_fault file s a).page_address +
        (a - (page_fault file s a).page_address) = a := by omega
    have hfs : (page_fault file s a).filesize = s.filesize := rfl
    have hval : (page_fault file s a).page (a - (page_fault file s a).page_address) = file a := by
      rw [hv2 (a - (page_fault file s a).page_address) hlt, hpa, hfs, if_pos ha]
    exact ⟨page_fault file s a, by rw [hval], hv2, rfl⟩

theorem at_step_valid (file : Nat → Nat) (s : HexView) (q : Nat) (hv : CacheValid file s) :
    CacheValid file (match at_ s file q with | some (_, u) => u | none => s) ∧
      (match at_ s file q with | some (_, u) => u | none => s).filesize = s.filesize := by
  unfold at_
  by_cases h1 : q < s.filesize
  · rw [if_pos h1]
    by_cases h2 : s.page_address ≤ q ∧ q < s.page_address + HEX_PAGESIZE
    · rw [if_pos h2]
      exact ⟨hv, rfl⟩
    · rw [if_neg h2]
      have hguard : (page_fault file s q).page_address ≤ q ∧
          q < (page_fault file s q).page_address + HEX_PAGESIZE := page_fault_in_window q
      rw [if_pos hguard]
      exact ⟨cache_valid_page_fault file s q, rfl⟩
  · rw [if_neg h1]
    exact ⟨hv, rfl⟩

theorem query_all_preserves (file : Nat → Nat) (s : HexView) (qs : List Nat)
    (hv : CacheValid file s) :
    CacheValid file (query_all file s qs) ∧ (query_all file s qs).filesize = s.filesize := by
  induction qs generalizing s with
  | nil => exact ⟨hv, rfl⟩
  | cons q qs ih =>
    have hstep := at_step_valid file s q hv
    have := ih (match at_ s file q with | some (_, u) => u | none => s) hstep.1
    unfold query_all at *
    rw [List.foldl_cons]
    exact ⟨this.1, by rw [this.2, hstep.2]⟩

/-- Concrete two-byte file 01 02 used by the witnesses and the endianness
claim. -/
def ex_file : Nat → Nat := fun a => if a = 0 then 1 else if a = 1 then 2 else 0

/-- Viewer state right after loading ex_file on a 10-row terminal
(view_height 4): the first page is faulted in. -/
def ex_state : HexView := page_fault ex_file { hexview_new 4 with filesize := 2 } 0

/-- Claim C2: for every address a below the file size, at(a) returns exactly
the byte of the underlying file at offset a, from any validly cached state
and regardless of which addresses were queried in between, so repeated calls
agree. -/
theorem at_correct_any_pattern (file : Nat → Nat) (s : HexView) (qs : List Nat) (a : Nat)
    (hv : CacheValid file s) (ha : a < s.filesize) :
    ∃ s2, at_ (query_all file s qs) file a = some (file a, s2) := by
  obtain ⟨hv2, hfs⟩ := query_all_preserves file s qs hv
  obtain ⟨s2, h, -, -⟩ :=
    at_some_of_valid file (query_all file s qs) a hv2 (by rw [hfs]; exact ha)
  exact ⟨s2, h⟩

theorem at_correct_any_pattern_witness :
    CacheValid ex_file ex_state ∧ (0 : Nat) < ex_state.filesize ∧
      ∃ s2, at_ (query_all ex_file ex_state [1, 0, 1]) ex_file 0 = some (ex_file 0, s2) :=
  ⟨cache_valid_page_fault ex_file { hexview_new 4 with filesize := 2 } 0,
    by decide,
    at_correct_any_pattern ex_file ex_state [1, 0, 1] 0
      (cache_valid_page_fault ex_file { hexview_new 4 with filesize := 2 } 0)
      (by decide)⟩

/-- Claim C9: at never modifies the navigation state: whatever it returns,
offset, cursor_x, cursor_y, endian, filesize and view_height are unchanged;
and on a cache hit it returns the cached byte with the entire state, page
and page_address included, unchanged. -/
theorem at_frame_effect (file : Nat → Nat) (s : HexView) (a : Nat) :
    (∀ b s2, at_ s file a = some (b, s2) →
      s2.offset = s.offset ∧ s2.cursor_x = s.cursor_x ∧ s2.cursor_y = s.cursor_y ∧
        s2.endian = s.endian ∧ s2.filesize = s.filesize ∧ s2.view_height = s.view_height) ∧
    (a < s.filesize → s.page_address ≤ a → a < s.page_address + HEX_PAGESIZE →
      at_ s file a = some (s.page (a - s.page_address), s)) := by
  constructor
  · intro b s2 h
    unfold at_ at h
    by_cases h1 : a < s.filesize
    · rw [if_pos h1] at h
      by_cases h2 : s.page_address ≤ a ∧ a < s.page_address + HEX_PAGESIZE
      · rw [if_pos h2] at h
        obtain ⟨-, h4⟩ := Prod.mk.injEq .. ▸ Option.some.injEq .. ▸ h
        subst h4
        exact ⟨rfl, rfl, rfl, rfl, rfl, rfl⟩
      · rw [if_neg h2] at h
        by_cases h3 : (page_fault file s a).page_address ≤ a ∧
            a < (page_fault file s a).page_address + HEX_PAGESIZE
        · rw [if_pos h3] at h
          obtain ⟨-, h4⟩ := Prod.mk.injEq .. ▸ Option.some.injEq .. ▸ h
          subst h4
          exact ⟨rfl, rfl, rfl, rfl, rfl, rfl⟩
        · rw [if_neg h3] at h
          exact absurd h (by simp)
    · rw [if_neg h1] at h
      exact absurd h (by simp)
  · intro h1 h2 h3
    unfold at_
    rw [if_pos h1, if_pos ⟨h2, h3⟩]

theorem at_frame_effect_witness :
    ((0 : Nat) < ex_state.filesize ∧ ex_state.page_address ≤ 0 ∧
        (0 : Nat) < ex_state.page_address + HEX_PAGESIZE) ∧
      at_ ex_state ex_file 0 = some (ex_state.page (0 - ex_state.page_address), ex_state) :=
  ⟨⟨by decide, by decide, by decide⟩,
    (at_frame_effect ex_file ex_state 0).2 (by decide) (by decide) (by decide)⟩

/-- Claim C10: after page_fault recomputes the aligned page_address, the
assertion in at holds for every address: the address lies inside the cached
window, the page index is in bounds, and consequently at never reaches its
panic branch for an address below the file size. -/
theorem page_fault_assertion (file : Nat → Nat) (s : HexView) (a : Nat) :
    (page_fault file s a).page_address ≤ a ∧
      a < (page_fault file s a).page_address + HEX_PAGESIZE ∧
      a - (page_fault file s a).page_address < HEX_PAGESIZE ∧
      (a < s.filesize → (at_ s file a).isSome = true) := by
  have hw := page_fault_in_window a
  have hpa : (page_fault file s a).page_address = a / HEX_PAGESIZE * HEX_PAGESIZE := rfl
  refine ⟨by rw [hpa]; exact hw.1, by rw [hpa]; exact hw.2, by rw [hpa]; omega, ?_⟩
  intro ha
  unfold at_
  rw [if_pos ha]
  by_cases h2 : s.page_address ≤ a ∧ a < s.page_address + HEX_PAGESIZE
  · rw [if_pos h2]
    rfl
  · rw [if_neg h2]
    have hguard : (page_fault file s a).page_address ≤ a ∧
        a < (page_fault file s a).page_address + HEX_PAGESIZE := page_fault_in_window a
    rw [if_pos hguard]
    rfl

theorem page_fault_assertion_witness :
    (5 : Nat) < ex_state.filesize + 10 ∧
      ((5 : Nat) < ex_state.filesize → (at_ ex_state ex_file 5).isSome = true) :=
  ⟨by decide, fun h => (page_fault_assertion ex_file ex_state 5).2.2.2 h⟩

/-- Viewer state right after loading a 1-byte file on a 10-row terminal. -/
def ex_state1 : HexView := page_fault ex_file { hexview_new 4 with filesize := 1 } 0

/-- Claim C7: each boundary command is a no-op at its boundary: Left at
absolute position 0, Right at position filesize - 1, Home at the origin,
End at the end position.  In all four cases the handler returns before
touching any state, the page cache included. -/
theorem boundary_noops (s : HexView) :
    (1 ≤ s.filesize → s.offset + s.cursor_y * 16 + s.cursor_x = s.filesize - 1 →
      key_right s = s) ∧
    (s.offset + s.cursor_y * 16 + s.cursor_x = 0 → key_left s = s) ∧
    (s.offset = 0 ∧ s.cursor_x = 0 ∧ s.cursor_y = 0 → key_home s = s) ∧
    (s.offset = end_offset s ∧ s.cursor_x = (s.filesize - 1 - end_offset s) % 16 ∧
      s.cursor_y = (s.filesize - 1 - end_offset s) / 16 → key_end s = s) := by
  refine ⟨?_, ?_, ?_, ?_⟩
  · intro h1 h2
    simp only [key_right]
    rw [if_pos (by omega)]
  · intro h
    simp only [key_left]
    rw [if_pos h]
  · intro h
    simp only [key_home]
    rw [if_pos h]
  · intro h
    simp only [key_end]
    rw [if_pos h]

theorem boundary_noops_witness :
    ((1 : Nat) ≤ ex_state1.filesize ∧
      ex_state1.offset + ex_state1.cursor_y * 16 + ex_state1.cursor_x = ex_state1.filesize - 1 ∧
      ex_state1.offset = end_offset ex_state1 ∧
      ex_state1.cursor_x = (ex_state1.filesize - 1 - end_offset ex_state1) % 16 ∧
      ex_state1.cursor_y = (ex_state1.filesize - 1 - end_offset ex_state1) / 16) ∧
    key_right ex_state1 = ex_state1 ∧ key_left ex_state1 = ex_state1 ∧
      key_home ex_state1 = ex_state1 ∧ key_end ex_state1 = ex_state1 :=
  ⟨⟨by decide, by decide, by decide, by decide, by decide⟩,
    (boundary_noops ex_state1).1 (by decide) (by decide),
    (boundary_noops ex_state1).2.1 (by decide),
    (boundary_noops ex_state1).2.2.1 ⟨by decide, by decide, by decide⟩,
    (boundary_noops ex_state1).2.2.2 ⟨by decide, by decide, by decide⟩⟩

/-- State with the cursor at linear position 20 in a 32-byte file: offset 0,
cursor_x 4, cursor_y 1, reachable from the origin via Right four times and
Down once. -/
def ex_state_up : HexView :=
  { page_fault ex_file { hexview_new 4 with filesize := 32 } 0 with
    cursor_x := 4, cursor_y := 1 }

/-- Counterexample to claim C3 as stated: at linear position 20 the
retreated position 20 - 16 = 4 is below 16, so the claim predicts a jump to
the absolute start (offset 0, cursor (0,0)); the code instead merely
decrements cursor_y, leaving cursor_x at 4.  The state is reachable (Right
four times then Down from the origin). -/
theorem key_up_claim_counterexample :
    run_commands (page_fault ex_file { hexview_new 4 with filesize := 32 } 0)
        [Command.right, Command.right, Command.right, Command.right, Command.down] =
      ex_state_up ∧
    0 < abs_position ex_state_up ∧ abs_position ex_state_up - 16 < 16 ∧
      ¬((key_up ex_state_up).offset = 0 ∧ (key_up ex_state_up).cursor_x = 0 ∧
        (key_up ex_state_up).cursor_y = 0) := by
  refine ⟨?_, by decide, by decide, by decide⟩
  rfl

/-- Claim C3 (amended): the jump-to-start test in key_up is on the current
linear position, not the retreated one: when 0 < pos < 16 the Up command
jumps to the absolute start (offset 0, cursor (0,0)); when pos >= 16 it
retreats the position by exactly one row, scrolling (offset -= 16) when
cursor_y is 0 and decrementing cursor_y when it is not, in both cases
leaving cursor_x unchanged. -/
theorem key_up_amended (s : HexView) (hx : s.cursor_x < 16) (hoff : s.offset % 16 = 0)
    (hpos : 0 < abs_position s) :
    (abs_position s < 16 → key_up s = { s with offset := 0, cursor_x := 0, cursor_y := 0 }) ∧
    (16 ≤ abs_position s → s.cursor_y = 0 →
      16 ≤ s.offset ∧ key_up s = { s with offset := s.offset - 16 } ∧
        abs_position (key_up s) = abs_position s - 16) ∧
    (16 ≤ abs_position s → s.cursor_y ≠ 0 →
      key_up s = { s with cursor_y := s.cursor_y - 1 } ∧
        abs_position (key_up s) = abs_position s - 16) := by
  simp only [abs_position] at *
  refine ⟨?_, ?_, ?_⟩
  · intro h
    simp only [key_up]
    rw [if_neg (by omega), if_pos h]
  · intro h hcy
    have hoff16 : 16 ≤ s.offset := by omega
    refine ⟨hoff16, ?_, ?_⟩
    · simp only [key_up]
      rw [if_neg (by omega), if_neg (by omega), if_pos hcy]
    · simp only [key_up]
      rw [if_neg (by omega), if_neg (by omega), if_pos hcy]
      simp only [abs_position]
      omega
  · intro h hcy
    refine ⟨?_, ?_⟩
    · simp only [key_up]
      rw [if_neg (by omega), if_neg (by omega), if_neg hcy]
    · simp only [key_up]
      rw [if_neg (by omega), if_neg (by omega), if_neg hcy]
      simp only [abs_position]
      omega

theorem key_up_amended_witness :
    (ex_state_up.cursor_x < 16 ∧ ex_state_up.offset % 16 = 0 ∧ 0 < abs_position ex_state_up) ∧
    (16 ≤ abs_position ex_state_up → ex_state_up.cursor_y ≠ 0 →
      key_up ex_state_up = { ex_state_up with cursor_y := ex_state_up.cursor_y - 1 } ∧
        abs_position (key_up ex_state_up) = abs_position ex_state_up - 16) :=
  ⟨⟨by decide, by decide, by decide⟩,
    (key_up_amended ex_state_up (by decide) (by decide) (by decide)).2.2⟩

theorem ceil16_bounds (n : Nat) : n ≤ (n + 15) / 16 * 16 ∧ (n + 15) / 16 * 16 ≤ n + 15 := by
  have hd := Nat.div_add_mod (n + 15) 16
  have hm : (n + 15) % 16 < 16 := Nat.mod_lt _ (by decide)
  omega

/-- The branching definition of the last page start in the source equals the
closed form of the spec, max(0, ceil(filesize/16)*16 - view_height*16),
written with truncated Nat subtraction. -/
theorem end_offset_spec (s : HexView) :
    end_offset s = (s.filesize + 15) / 16 * 16 - s.view_height * 16 := by
  unfold end_offset
  by_cases h : s.filesize ≤ s.view_height * 16
  · rw [if_pos h]
    have h2 := ceil16_bounds s.filesize
    have h3 : (s.filesize + 15) / 16 ≤ (s.view_height * 16 + 15) / 16 :=
      Nat.div_le_div_right (by omega)
    have h4 : (s.view_height * 16 + 15) / 16 = s.view_height := by omega
    omega
  · rw [if_neg h]

theorem end_offset_bounds (s : HexView) (hfs : 1 ≤ s.filesize) (hvh : 1 ≤ s.view_height) :
    end_offset s ≤ s.filesize - 1 ∧
      s.filesize - 1 - end_offset s < s.view_height * 16 := by
  unfold end_offset
  by_cases h : s.filesize ≤ s.view_height * 16
  · rw [if_pos h]
    omega
  · rw [if_neg h]
    have h2 := ceil16_bounds s.filesize
    omega

theorem key_end_fields (s : HexView) (hfs : 1 ≤ s.filesize) (hvh : 1 ≤ s.view_height)
    (hvh16 : s.view_height < 65536) :
    (key_end s).offset = end_offset s ∧
      (key_end s).cursor_x = (s.filesize - 1 - end_offset s) % 16 ∧
      (key_end s).cursor_y = (s.filesize - 1 - end_offset s) / 16 := by
  obtain ⟨hle, hspan⟩ := end_offset_bounds s hfs hvh
  have hcy : (s.filesize - 1 - end_offset s) / 16 < s.view_height := by omega
  have hcx : (s.filesize - 1 - end_offset s) % 16 < 16 := Nat.mod_lt _ (by decide)
  simp only [key_end]
  split
  · next h => exact ⟨h.1, h.2.1, h.2.2⟩
  · next h =>
    refine ⟨rfl, Nat.mod_eq_of_lt (by omega), Nat.mod_eq_of_lt (by omega)⟩

/-- Claim C4: from any state of a nonempty file, End moves to the last page
start, which equals the spec formula max(0, ceil(filesize/16)*16 -
view_height*16) (the Nat subtraction is the max with 0), puts the cursor on
the coordinates of byte filesize-1 relative to that offset, keeps cursor_y
inside the viewport, and so lands the cursor exactly on absolute linear
position filesize - 1.  The last hypothesis is the u64 non-overflow side
condition for the filesize + 15 computed by the source. -/
theorem key_end_lands_on_last_byte (s : HexView) (hfs : 1 ≤ s.filesize)
    (hvh : 1 ≤ s.view_height) (hvh16 : s.view_height < 65536)
    (_hov : s.filesize + 15 < 2 ^ 64) :
    (key_end s).offset = (s.filesize + 15) / 16 * 16 - s.view_height * 16 ∧
      (key_end s).cursor_x = (s.filesize - 1 - end_offset s) % 16 ∧
      (key_end s).cursor_y = (s.filesize - 1 - end_offset s) / 16 ∧
      (key_end s).cursor_y < s.view_height ∧
      (key_end s).offset + (key_end s).cursor_y * 16 + (key_end s).cursor_x =
        s.filesize - 1 := by
  obtain ⟨ho, hx, hy⟩ := key_end_fields s hfs hvh hvh16
  obtain ⟨hle, hspan⟩ := end_offset_bounds s hfs hvh
  have hdm := Nat.div_add_mod (s.filesize - 1 - end_offset s) 16
  refine ⟨by rw [ho, end_offset_spec], hx, hy, by omega, ?_⟩
  rw [ho, hx, hy]
  omega

theorem key_end_lands_on_last_byte_witness :
    ((1 : Nat) ≤ ex_state_up.filesize ∧ (1 : Nat) ≤ ex_state_up.view_height ∧
        ex_state_up.view_height < 65536 ∧ ex_state_up.filesize + 15 < 2 ^ 64) ∧
      (key_end ex_state_up).offset + (key_end ex_state_up).cursor_y * 16 +
          (key_end ex_state_up).cursor_x = ex_state_up.filesize - 1 :=
  ⟨⟨by decide, by decide, by decide, by decide⟩,
    (key_end_lands_on_last_byte ex_state_up (by decide) (by decide) (by decide)
      (by decide)).2.2.2.2⟩

/-- Initial viewer state for a 65-byte file on a 10-row terminal
(view_height 4), as produced by load. -/
def ex_bug_start : HexView := page_fault ex_file { hexview_new 4 with filesize := 65 } 0

set_option maxRecDepth 4000 in
/-- Claim C1 (code bug): the navigation invariant is violated by a reachable
Down transition.  With view_height 4 and filesize 65, the 63 Right commands
from the initial state keep the invariant at every step and land the cursor
at (15, 3), linear position 63; the next Down overshoots end-of-file, and
the clamp in key_down places the cursor on byte 64 relative to the unmoved
offset 0, setting cursor_y = 4 = view_height: the cursor leaves the
viewport and cursor_y < view_height fails. -/
theorem key_down_breaks_invariant :
    (∀ k, k < 64 →
      nav_invariant (run_commands ex_bug_start (List.replicate k Command.right))) ∧
      (run_commands ex_bug_start
        (List.replicate 63 Command.right ++ [Command.down])).cursor_y = 4 ∧
      (run_commands ex_bug_start
        (List.replicate 63 Command.right ++ [Command.down])).view_height = 4 ∧
      ¬nav_invariant (run_commands ex_bug_start
        (List.replicate 63 Command.right ++ [Command.down])) := by
  refine ⟨?_, by decide, by decide, by decide⟩
  decide

theorem at_state_filesize (file : Nat → Nat) (s : HexView) (a : Nat) :
    (at_state s file a).filesize = s.filesize := by
  unfold at_state at_
  by_cases h1 : a < s.filesize
  · simp only [if_pos h1]
    by_cases h2 : s.page_address ≤ a ∧ a < s.page_address + HEX_PAGESIZE
    · simp [h2]
    · simp only [if_neg h2]
      by_cases h3 : (page_fault file s a).page_address ≤ a ∧
          a < (page_fault file s a).page_address + HEX_PAGESIZE
      · simp only [if_pos h3]
        rfl
      · simp [h3]
  · simp [h1]

/-- Claim C5: for each multi-byte width w in 2, 4, 8 the info pane decodes
the value exactly when pos + w - 1 < filesize and marks the field
unavailable otherwise (the floating-point fields share the rule for w = 4
and w = 8); in particular at position filesize-1 every width at least 2 is
unavailable, and at position filesize-4 of a file of at least 4 bytes the
width-8 decodes are unavailable while the widths up to 4 are available.
The hypothesis is the u64 non-overflow side condition for the pos + w - 1
comparisons of the source. -/
theorem decoder_availability (s : HexView) (file : Nat → Nat)
    (_hov : s.filesize + 15 < 2 ^ 64) :
    (∀ pos, ((draw_info_i16 s file pos).1.isSome = true ↔ pos + 1 < s.filesize)) ∧
      (∀ pos, ((draw_info_i32 s file pos).1.isSome = true ↔ pos + 3 < s.filesize)) ∧
      (∀ pos, ((draw_info_i64 s file pos).1.isSome = true ↔ pos + 7 < s.filesize)) ∧
      (∀ pos, ((draw_info_f32_f64_and_endianness s file pos).1.1.isSome = true ↔
        pos + 3 < s.filesize)) ∧
      (∀ pos, ((draw_info_f32_f64_and_endianness s file pos).1.2.isSome = true ↔
        pos + 7 < s.filesize)) ∧
      (1 ≤ s.filesize →
        (draw_info_i16 s file (s.filesize - 1)).1 = none ∧
          (draw_info_i32 s file (s.filesize - 1)).1 = none ∧
          (draw_info_i64 s file (s.filesize - 1)).1 = none ∧
          (draw_info_f32_f64_and_endianness s file (s.filesize - 1)).1.1 = none ∧
          (draw_info_f32_f64_and_endianness s file (s.filesize - 1)).1.2 = none) ∧
      (4 ≤ s.filesize →
        (draw_info_i64 s file (s.filesize - 4)).1 = none ∧
          (draw_info_f32_f64_and_endianness s file (s.filesize - 4)).1.2 = none ∧
          (draw_info_i8 s file (s.filesize - 4)).1.isSome = true ∧
          (draw_info_i16 s file (s.filesize - 4)).1.isSome = true ∧
          (draw_info_i32 s file (s.filesize - 4)).1.isSome = true ∧
          (draw_info_f32_f64_and_endianness s file (s.filesize - 4)).1.1.isSome = true) := by
  have h16 : ∀ pos, ((draw_info_i16 s file pos).1.isSome = true ↔ pos + 1 < s.filesize) := by
    intro pos
    by_cases h : pos + 1 < s.filesize <;> simp [draw_info_i16, h]
  have h32 : ∀ pos, ((draw_info_i32 s file pos).1.isSome = true ↔ pos + 3 < s.filesize) := by
    intro pos
    by_cases h : pos + 3 < s.filesize <;> simp [draw_info_i32, h]
  have h64 : ∀ pos, ((draw_info_i64 s file pos).1.isSome = true ↔ pos + 7 < s.filesize) := by
    intro pos
    by_cases h : pos + 7 < s.filesize <;> simp [draw_info_i64, h]
  have h8 : ∀ pos, ((draw_info_i8 s file pos).1.isSome = true ↔ pos < s.filesize) := by
    intro pos
    by_cases h : pos < s.filesize <;> simp [draw_info_i8, h]
  have hf32 : ∀ pos, ((draw_info_f32_f64_and_endianness s file pos).1.1.isSome = true ↔
      pos + 3 < s.filesize) := by
    intro pos
    by_cases ha : pos + 3 < s.filesize
    · by_cases hb : pos + 7 < s.filesize <;>
        simp [draw_info_f32_f64_and_endianness, ha, hb, at_state_filesize]
    · have hb : ¬pos + 7 < s.filesize := by omega
      simp [draw_info_f32_f64_and_endianness, ha, hb]
  have hf64 : ∀ pos, ((draw_info_f32_f64_and_endianness s file pos).1.2.isSome = true ↔
      pos + 7 < s.filesize) := by
    intro pos
    by_cases ha : pos + 3 < s.filesize
    · by_cases hb : pos + 7 < s.filesize <;>
        simp [draw_info_f32_f64_and_endianness, ha, hb, at_state_filesize]
    · have hb : ¬pos + 7 < s.filesize := by omega
      simp [draw_info_f32_f64_and_endianness, ha, hb]
  refine ⟨h16, h32, h64, hf32, hf64, ?_, ?_⟩
  · intro h1
    refine ⟨?_, ?_, ?_, ?_, ?_⟩
    · have := h16 (s.filesize - 1)
      cases hc : (draw_info_i16 s file (s.filesize - 1)).1 with
      | none => rfl
      | some v => rw [hc] at this; simp at this; omega
    · have := h32 (s.filesize - 1)
      cases hc : (draw_info_i32 s file (s.filesize - 1)).1 with
      | none => rfl
      | some v => rw [hc] at this; simp at this; omega
    · have := h64 (s.filesize - 1)
      cases hc : (draw_info_i64 s file (s.filesize - 1)).1 with
      | none => rfl
      | some v => rw [hc] at this; simp at this; omega
    · have := hf32 (s.filesize - 1)
      cases hc : (draw_info_f32_f64_and_endianness s file (s.filesize - 1)).1.1 with
      | none => rfl
      | some v => rw [hc] at this; simp at this; omega
    · have := hf64 (s.filesize - 1)
      cases hc : (draw_info_f32_f64_and_endianness s file (s.filesize - 1)).1.2 with
      | none => rfl
      | some v => rw [hc] at this; simp at this; omega
  · intro h4
    refine ⟨?_, ?_, ?_, ?_, ?_, ?_⟩
    · have := h64 (s.filesize - 4)
      cases hc : (draw_info_i64 s file (s.filesize - 4)).1 with
      | none => rfl
      | some v => rw [hc] at this; simp at this; omega
    · have := hf64 (s.filesize - 4)
      cases hc : (draw_info_f32_f64_and_endianness s file (s.filesize - 4)).1.2 with
      | none => rfl
      | some v => rw [hc] at this; simp at this; omega
    · exact (h8 (s.filesize - 4)).2 (by omega)
    · exact (h16 (s.filesize - 4)).2 (by omega)
    · exact (h32 (s.filesize - 4)).2 (by omega)
    · exact (hf32 (s.filesize - 4)).2 (by omega)

theorem decoder_availability_witness :
    ((20 : Nat) + 15 < 2 ^ 64 ∧ (1 : Nat) ≤ 20 ∧ (4 : Nat) ≤ 20) ∧
      ((draw_info_i16 { hexview_new 4 with filesize := 20 } ex_file 19).1 = none ∧
        (draw_info_i64 { hexview_new 4 with filesize := 20 } ex_file 16).1 = none ∧
        (draw_info_i32 { hexview_new 4 with filesize := 20 } ex_file 16).1.isSome = true) :=
  ⟨⟨by decide, by decide, by decide⟩,
    ((decoder_availability { hexview_new 4 with filesize := 20 } ex_file
        (by decide)).2.2.2.2.2.1 (by decide)).1,
    ((decoder_availability { hexview_new 4 with filesize := 20 } ex_file
        (by decide)).2.2.2.2.2.2 (by decide)).1,
    ((decoder_availability { hexview_new 4 with filesize := 20 } ex_file
        (by decide)).2.2.2.2.2.2 (by decide)).2.2.2.2.1⟩

/-- Claim C6: multi-byte decoding honors the session byte order: on the
two-byte window 01 02, the little-endian u16 decode is 0x0201 = 513 and the
big-endian u16 decode of the same window is 0x0102 = 258; toggling the
endianness twice is the identity on the state, so the decode after two
toggles equals the original decode. -/
theorem byte_order_symmetry :
    (draw_info_i16 ex_state ex_file 0).1 = some (513, 513) ∧
      (draw_info_i16 (toggle_endianness ex_state) ex_file 0).1 = some (258, 258) ∧
      (∀ s : HexView, toggle_endianness (toggle_endianness s) = s) ∧
      (∀ (s : HexView) (file : Nat → Nat) (pos : Nat),
        draw_info_i16 (toggle_endianness (toggle_endianness s)) file pos =
          draw_info_i16 s file pos) := by
  have htog : ∀ s : HexView, toggle_endianness (toggle_endianness s) = s := by
    intro s
    cases s with
    | mk vh cx cy e fs off pa pg => cases e <;> rfl
  exact ⟨by decide, by decide, htog, fun s file pos => by rw [htog s]⟩

/-- Claim C8: the loader rejects a zero-length file with process exit code 1
before the interactive loop, while any file of at least one byte loads into
the initial viewer state (origin cursor, first page cached); the emptiness
check lives in load, not in the byte-source open, which performs no size
check. -/
theorem load_rejects_empty (file : Nat → Nat) (vh : Nat) :
    (∀ fs, (file_open file fs).isSome = true) ∧
      load file 0 (hexview_new vh) = Except.error 1 ∧
      (∀ fs, 1 ≤ fs → ∃ s, load file fs (hexview_new vh) = Except.ok s ∧
        s.offset = 0 ∧ s.cursor_x = 0 ∧ s.cursor_y = 0 ∧ s.filesize = fs ∧
        CacheValid file s) := by
  refine ⟨fun fs => rfl, rfl, ?_⟩
  intro fs hfs
  refine ⟨page_fault file { hexview_new vh with filesize := fs } 0, ?_, rfl, rfl, rfl, rfl,
    cache_valid_page_fault file { hexview_new vh with filesize := fs } 0⟩
  unfold load
  rw [if_neg (by omega)]

theorem load_rejects_empty_witness :
    (1 : Nat) ≤ 20 ∧ ∃ s, load ex_file 20 (hexview_new 4) = Except.ok s ∧
      s.offset = 0 ∧ s.cursor_x = 0 ∧ s.cursor_y = 0 ∧ s.filesize = 20 ∧
      CacheValid ex_file s :=
  ⟨by decide, (load_rejects_empty ex_file 4).2.2 20 (by decide)⟩
